import Mathlib

/-!
Verification development for the load balancer (`LoadBalancer.py`).

The module-level state of the program is a list `backends : list[str]`,
a dict `queue_counts : dict[str, int]`, a dict `health_status : dict[str, bool]`
and the persisted file `backends.json`.  Python dicts are embedded as
insertion-ordered association lists, machine integers as `Int` (Python ints
are unbounded), and fallible operations (`KeyError`) as `Option`/explicit
error constructors.
-/

set_option maxRecDepth 4000

/-- Python dict lookup `d[k]`: `none` models a raised `KeyError`. -/
def pyLookup {α : Type} : List (String × α) → String → Option α
  | [], _ => none
  | (k2, v) :: rest, k => if k2 = k then some v else pyLookup rest k

/-- Python dict lookup with default, `d.get(k, dflt)`. -/
def pyGetD {α : Type} (d : List (String × α)) (k : String) (dflt : α) : α :=
  (pyLookup d k).getD dflt

/-- Python dict membership test `k in d`. -/
def pyContains {α : Type} (d : List (String × α)) (k : String) : Bool :=
  (pyLookup d k).isSome

/-- Python dict assignment `d[k] = v`: update in place if the key exists,
append a fresh entry otherwise (insertion order preserved). -/
def pyDictSet {α : Type} : List (String × α) → String → α → List (String × α)
  | [], k, v => [(k, v)]
  | (k2, v2) :: rest, k, v =>
    if k2 = k then (k, v) :: rest else (k2, v2) :: pyDictSet rest k v

/-- Python `d.pop(k, None)`: drop the entry for `k` if present. -/
def pyDictPop {α : Type} : List (String × α) → String → List (String × α)
  | [], _ => []
  | (k2, v2) :: rest, k => if k2 = k then rest else (k2, v2) :: pyDictPop rest k

/-- Python `list.remove(x)` on a list known to contain `x`: drop the first
occurrence (the callers in the source guard membership first). -/
def listRemoveFirst : List String → String → List String
  | [], _ => []
  | x :: xs, u => if x = u then xs else x :: listRemoveFirst xs u

/-- Keys of an embedded dict, in insertion order. -/
def dictKeys {α : Type} (d : List (String × α)) : List String :=
  d.map Prod.fst

/-- The mutable module state of `LoadBalancer.py`: `backends`, `queue_counts`,
`health_status` and the contents of `backends.json` (`none` = file absent). -/
structure LBState where
  backends : List String
  queue_counts : List (String × Int)
  health_status : List (String × Bool)
  file : Option String
deriving DecidableEq

/-- Character constants used when building strings (kept out of literals). -/
def dqChar : Char := Char.ofNat 34

/-- Backslash character. -/
def bslChar : Char := Char.ofNat 92

/-- Single-quote character. -/
def sqChar : Char := Char.ofNat 39

/-- Newline character. -/
def nlChar : Char := Char.ofNat 10

/-- Opening curly brace character. -/
def lbChar : Char := Char.ofNat 123

/-- Closing curly brace character. -/
def rbChar : Char := Char.ofNat 125

/-- UTF-8 encoding of one code point, as byte values (Python `str.encode`). -/
def utf8Bytes (c : Char) : List Nat :=
  let n := c.toNat
  if n < 128 then [n]
  else if n < 2048 then [192 + n / 64, 128 + n % 64]
  else if n < 65536 then [224 + n / 4096, 128 + (n / 64) % 64, 128 + n % 64]
  else [240 + n / 262144, 128 + (n / 4096) % 64, 128 + (n / 64) % 64, 128 + n % 64]

/-- Python `s.encode("utf-8")`: the byte values of the UTF-8 encoding. -/
def pyEncodeUtf8 (s : String) : List Nat :=
  s.data.flatMap utf8Bytes

/-- Lowercase hex digit for a value below 16. -/
def hexDigit (n : Nat) : Char :=
  if n < 10 then Char.ofNat (48 + n) else Char.ofNat (87 + n)

/-- Rendering of one byte inside Python `repr(bytes)`, given the chosen
quote character code `q`. -/
def pyReprByte (q : Nat) (b : Nat) : List Char :=
  if b = 92 then [bslChar, bslChar]
  else if b = q then [bslChar, Char.ofNat q]
  else if b = 9 then [bslChar, 't']
  else if b = 10 then [bslChar, 'n']
  else if b = 13 then [bslChar, 'r']
  else if 32 ≤ b ∧ b ≤ 126 then [Char.ofNat b]
  else [bslChar, 'x', hexDigit (b / 16), hexDigit (b % 16)]

/-- Python `str(bytes_value)`, i.e. `repr`: `b` followed by a quoted, escaped
rendering of the bytes.  Single quotes are used unless the bytes contain a
single quote and no double quote. -/
def pyBytesRepr (bs : List Nat) : String :=
  let q : Nat := if bs.contains 39 ∧ ¬ bs.contains 34 then 34 else 39
  String.mk (('b' :: Char.ofNat q :: bs.flatMap (pyReprByte q)) ++ [Char.ofNat q])

/-- Upstream URL built by the middleware (line 160 of the source):
the f-string interpolates `request.url.query.encode("utf-8")`, a `bytes`
value, so its `repr` is spliced into the URL. -/
def buildUpstreamUrl (target path rawQuery : String) : String :=
  target ++ path ++ String.singleton (Char.ofNat 63) ++ pyBytesRepr (pyEncodeUtf8 rawQuery)

/-- The `finally` block of the middleware (lines 190-191):
`queue_counts[target] -= 1`.  `none` models the `KeyError` raised when the
target is no longer a key; otherwise the count is decremented unconditionally. -/
def releaseTarget (qc : List (String × Int)) (target : String) : Option (List (String × Int)) :=
  match pyLookup qc target with
  | none => none
  | some c => some (pyDictSet qc target (c - 1))

/-- Inner loop of Python `min(xs, key=f)` over the remaining list, carrying the
current best element and its key.  A key evaluating to `none` models a raised
`KeyError`; a strictly smaller key replaces the current best, so the earliest
element with the minimal key wins. -/
def pyMinByGo (key : String → Option Int) (best : String) (bestK : Int) :
    List String → Option String
  | [] => some best
  | x :: xs =>
    match key x with
    | none => none
    | some k => if k < bestK then pyMinByGo key x k xs else pyMinByGo key best bestK xs

/-- Python `min(xs, key=f)`: `none` models `ValueError` on an empty list or a
`KeyError` raised by the key function. -/
def pyMinBy (key : String → Option Int) : List String → Option String
  | [] => none
  | x :: xs =>
    match key x with
    | none => none
    | some k => pyMinByGo key x k xs

/-- Healthy backends in roster order (line 145 of the source):
`[u for u in backends if health_status.get(u)]`. -/
def availList (s : LBState) : List String :=
  s.backends.filter fun u => pyGetD s.health_status u false

/-- Outcome of the backend-selection block (lines 144-150 of the source). -/
inductive SelectResult where
  | noBackends
  | keyError
  | selected (target : String) (s2 : LBState)
deriving DecidableEq

/-- Backend selection (lines 144-150): filter the healthy backends, raise
503 if none, pick the one with the least `queue_counts` via `min`, then
`queue_counts[target] += 1`. -/
def selectBackend (s : LBState) : SelectResult :=
  match availList s with
  | [] => SelectResult.noBackends
  | x :: xs =>
    match pyMinBy (fun u => pyLookup s.queue_counts u) (x :: xs) with
    | none => SelectResult.keyError
    | some target =>
      match pyLookup s.queue_counts target with
      | none => SelectResult.keyError
      | some c =>
        SelectResult.selected target
          { s with queue_counts := pyDictSet s.queue_counts target (c + 1) }

/-- Health write performed by `health_check_loop` (line 68 of the source):
`health_status[url] = ok`, a plain dict assignment. -/
def setHealth (s : LBState) (url : String) (ok : Bool) : LBState :=
  { s with health_status := pyDictSet s.health_status url ok }

/-- Inbound HTTP request as seen by the middleware: method, path, raw query
string, raw header pairs and the body as the sequence of chunks in which it
arrives on the wire. -/
structure InboundRequest where
  method : String
  path : String
  rawQuery : String
  headers : List (String × String)
  bodyChunks : List (List Nat)
deriving DecidableEq

/-- Python `await request.body()`: the whole body accumulated in memory,
i.e. the concatenation of every chunk. -/
def pyRequestBody (chunks : List (List Nat)) : List Nat :=
  chunks.flatMap id

/-- Form in which the request body is handed to the upstream client:
`bytes` is a fully materialised byte string (`content=await request.body()`),
`stream` would be a chunk iterator handed through without accumulation. -/
inductive UpstreamContent where
  | bytes (data : List Nat)
  | stream (chunks : List (List Nat))
deriving DecidableEq

/-- One dispatch attempt recorded against the upstream client
(`client.stream(method, url, headers=..., content=...)`). -/
structure UpstreamCall where
  method : String
  url : String
  headers : List (String × String)
  content : UpstreamContent
deriving DecidableEq

/-- Scripted outcome of one dispatch attempt: either upstream response
headers arrive (`ok`, with status, headers and the body chunks that follow),
or the transport fails with `httpx.RequestError` (`reqError`). -/
inductive AttemptOutcome where
  | ok (status : Nat) (headers : List (String × String)) (bodyChunks : List (List Nat))
  | reqError (msg : String)

/-- ASCII lowercase of a string (Python `str.lower` on header names). -/
def asciiLower (s : String) : String :=
  String.mk (s.data.map Char.toLower)

/-- Hop-by-hop header stripping (lines 168-172 of the source): drop
`content-length`, `transfer-encoding` and `connection`, case-insensitively. -/
def filterRespHeaders (hs : List (String × String)) : List (String × String) :=
  hs.filter fun kv =>
    ¬ (asciiLower kv.1 = ("content-length") ∨ asciiLower kv.1 = ("transfer-encoding") ∨
       asciiLower kv.1 = ("connection"))

/-- Case-insensitive header lookup (`resp.headers.get("content-type")`). -/
def ciHeaderGet (hs : List (String × String)) (k : String) : Option String :=
  match hs.find? (fun kv => asciiLower kv.1 = asciiLower k) with
  | none => none
  | some kv => some kv.2

/-- Relay of the upstream body by `proxy_streamer`: each arriving chunk is
yielded downstream unchanged; a `StreamClosed` just ends the generator, so the
delivered chunks are exactly the chunks the upstream produced. -/
def proxyStreamer (chunks : List (List Nat)) : List (List Nat) :=
  chunks

/-- Response returned downstream by the middleware. -/
structure ProxyResponse where
  status : Nat
  headers : List (String × String)
  mediaType : Option String
  bodyChunks : List (List Nat)
deriving DecidableEq

/-- Result of one middleware invocation, carrying the final module state and
the list of upstream dispatch attempts that were made.  `management` is the
bypass branch (`call_next`), `httpError` a raised `fastapi.HTTPException`,
`pyError` any other uncaught Python exception (e.g. `KeyError`). -/
inductive MWResult where
  | management (s : LBState)
  | response (resp : ProxyResponse) (s : LBState) (calls : List UpstreamCall)
  | httpError (status : Nat) (detail : String) (s : LBState) (calls : List UpstreamCall)
  | pyError (name : String) (s : LBState) (calls : List UpstreamCall)
deriving DecidableEq

/-- Upstream dispatch attempts recorded in a middleware result. -/
def callsOf : MWResult → List UpstreamCall
  | MWResult.management _ => []
  | MWResult.response _ _ calls => calls
  | MWResult.httpError _ _ _ calls => calls
  | MWResult.pyError _ _ calls => calls

/-- Final module state recorded in a middleware result. -/
def stateOf : MWResult → LBState
  | MWResult.management s => s
  | MWResult.response _ s _ => s
  | MWResult.httpError _ _ s _ => s
  | MWResult.pyError _ s _ => s

/-- Retry bound of the middleware (`max_retries = 3`). -/
def maxRetries : Nat := 3

/-- The `for attempt in range(1, max_retries + 1)` loop (lines 156-191).
`call` is the dispatch recorded each attempt (method, URL, headers and body
are recomputed identically every time).  The `finally` block runs
`queue_counts[target] -= 1` once per iteration: after a successful `return`,
after the final `raise HTTPException(502, ...)`, and after the 1-second sleep
of a non-final failed attempt.  A `KeyError` escaping the `finally` replaces
the in-flight result.  `fuel` counts the remaining iterations. -/
def attemptLoop (call : UpstreamCall) (target : String) (outcomes : Nat → AttemptOutcome) :
    Nat → Nat → LBState → List UpstreamCall → MWResult
  | _, 0, s, calls => MWResult.pyError ("NoneReturned") s calls
  | attempt, fuel + 1, s, calls =>
    let calls2 := calls ++ [call]
    match outcomes attempt with
    | AttemptOutcome.ok status hs body =>
      let resp : ProxyResponse :=
        { status := status
          headers := filterRespHeaders hs
          mediaType := ciHeaderGet hs ("content-type")
          bodyChunks := proxyStreamer body }
      match releaseTarget s.queue_counts target with
      | none => MWResult.pyError ("KeyError") s calls2
      | some qc => MWResult.response resp { s with queue_counts := qc } calls2
    | AttemptOutcome.reqError msg =>
      if attempt = maxRetries then
        match releaseTarget s.queue_counts target with
        | none => MWResult.pyError ("KeyError") s calls2
        | some qc => MWResult.httpError 502 msg { s with queue_counts := qc } calls2
      else
        match releaseTarget s.queue_counts target with
        | none => MWResult.pyError ("KeyError") s calls2
        | some qc =>
          attemptLoop call target outcomes (attempt + 1) fuel
            { s with queue_counts := qc } calls2

/-- Management bypass test (line 140 of the source):
`path.startswith("/servers") or path == "/queue-lengths"`. -/
def isManagementPath (p : String) : Bool :=
  p.startsWith ("/servers") || p = ("/queue-lengths")

/-- The proxy middleware `load_balancer` (lines 126-191): bypass management
paths, select the least-loaded healthy backend (503 if none), then run the
retry loop.  `outcomes` scripts the transport outcome of each attempt. -/
def loadBalancerMiddleware (s : LBState) (req : InboundRequest)
    (outcomes : Nat → AttemptOutcome) : MWResult :=
  if isManagementPath req.path then MWResult.management s
  else
    match selectBackend s with
    | SelectResult.noBackends => MWResult.httpError 503 ("No available backends") s []
    | SelectResult.keyError => MWResult.pyError ("KeyError") s []
    | SelectResult.selected target s2 =>
      let call : UpstreamCall :=
        { method := req.method
          url := buildUpstreamUrl target req.path req.rawQuery
          headers := req.headers
          content := UpstreamContent.bytes (pyRequestBody req.bodyChunks) }
      attemptLoop call target outcomes 1 maxRetries s2 []

/-- JSON values produced by `json.loads` (numbers omitted: roster documents
contain only objects, arrays and strings; a document with a number simply
fails this modelled parser and is treated as malformed). -/
inductive PyJson where
  | null
  | bool (b : Bool)
  | str (s : String)
  | arr (items : List PyJson)
  | obj (members : List (String × PyJson))

/-- Escaping of one character by `json.dumps` (default `ensure_ascii=True`):
quote, backslash and control characters are escaped, other printable ASCII is
literal, and everything from `0x7f` up becomes `\uXXXX` (with surrogate pairs
above `0xffff`). -/
def pyJsonEscapeChar (c : Char) : List Char :=
  let hex4 : Nat → List Char := fun n =>
    [hexDigit (n / 4096 % 16), hexDigit (n / 256 % 16), hexDigit (n / 16 % 16), hexDigit (n % 16)]
  if c = dqChar then [bslChar, dqChar]
  else if c = bslChar then [bslChar, bslChar]
  else if c = Char.ofNat 10 then [bslChar, 'n']
  else if c = Char.ofNat 9 then [bslChar, 't']
  else if c = Char.ofNat 13 then [bslChar, 'r']
  else if c = Char.ofNat 8 then [bslChar, 'b']
  else if c = Char.ofNat 12 then [bslChar, 'f']
  else if c.toNat < 32 then [bslChar, 'u', '0', '0', hexDigit (c.toNat / 16), hexDigit (c.toNat % 16)]
  else if c.toNat < 127 then [c]
  else if c.toNat < 65536 then bslChar :: 'u' :: hex4 c.toNat
  else
    let n := c.toNat - 65536
    (bslChar :: 'u' :: hex4 (55296 + n / 1024)) ++ (bslChar :: 'u' :: hex4 (56320 + n % 1024))

/-- Escaped character sequence of a string inside a JSON document. -/
def escChars (u : String) : List Char :=
  u.data.flatMap pyJsonEscapeChar

/-- Four-space indentation used for array items at `indent=2`, depth 2. -/
def spaces4 : List Char := [' ', ' ', ' ', ' ']

/-- One array item as rendered by `json.dumps(..., indent=2)`:
four spaces and the quoted string. -/
def itemChars (u : String) : List Char :=
  spaces4 ++ dqChar :: escChars u ++ [dqChar]

/-- Comma-newline-joined items of a roster array at `indent=2`. -/
def itemsChars : List String → List Char
  | [] => []
  | [u] => itemChars u
  | u :: us => itemChars u ++ ',' :: nlChar :: itemsChars us

/-- Leading characters of a non-empty roster document. -/
def headChars : List Char :=
  lbChar :: nlChar :: ' ' :: ' ' :: dqChar :: (("backends").data ++ [dqChar, ':', ' ', '[', nlChar])

/-- Trailing characters of a non-empty roster document. -/
def tailChars : List Char :=
  [nlChar, ' ', ' ', ']', nlChar, rbChar]

/-- Characters of `json.dumps({"backends": l}, indent=2)`: an empty list is
rendered inline, a non-empty one with one item per line. -/
def dumpChars (l : List String) : List Char :=
  match l with
  | [] => lbChar :: nlChar :: ' ' :: ' ' :: dqChar ::
      (("backends").data ++ [dqChar, ':', ' ', '[', ']', nlChar, rbChar])
  | _ => headChars ++ itemsChars l ++ tailChars

/-- The string written to `backends.json` by `save_backends` (lines 50-53 of
the source): `json.dumps({"backends": backends}, indent=2)`. -/
def pyJsonDumpsBackends (l : List String) : String :=
  String.mk (dumpChars l)

/-- Whitespace recognised between JSON tokens. -/
def isWsChar (c : Char) : Bool :=
  c = ' ' || c = Char.ofNat 9 || c = Char.ofNat 10 || c = Char.ofNat 13

/-- Drop leading JSON whitespace. -/
def skipWs : List Char → List Char
  | [] => []
  | c :: rest => if isWsChar c then skipWs rest else c :: rest

/-- Value of one hex digit. -/
def hexVal (c : Char) : Option Nat :=
  let n := c.toNat
  if 48 ≤ n ∧ n ≤ 57 then some (n - 48)
  else if 97 ≤ n ∧ n ≤ 102 then some (n - 87)
  else if 65 ≤ n ∧ n ≤ 70 then some (n - 55)
  else none

/-- Value of a four-digit hex escape. -/
def hex4Val (a b c d : Char) : Option Nat :=
  match hexVal a, hexVal b, hexVal c, hexVal d with
  | some x, some y, some z, some w => some (x * 4096 + y * 256 + z * 16 + w)
  | _, _, _, _ => none

/-- Named single-character escapes of JSON strings. -/
def simpleEsc (e : Char) : Option Char :=
  if e = dqChar then some dqChar
  else if e = bslChar then some bslChar
  else if e = Char.ofNat 47 then some (Char.ofNat 47)
  else if e = 'b' then some (Char.ofNat 8)
  else if e = 'f' then some (Char.ofNat 12)
  else if e = 'n' then some (Char.ofNat 10)
  else if e = 'r' then some (Char.ofNat 13)
  else if e = 't' then some (Char.ofNat 9)
  else none

/-- Body of a JSON string literal after the opening quote: returns the decoded
characters and the input after the closing quote.  Raw control characters are
rejected as `json.loads` does in strict mode; `\uXXXX` escapes decode a single
scalar value (surrogate halves are treated as malformed, a modelling
restriction of the library parser that roster documents never exercise). -/
def parseStringBody : List Char → Option (List Char × List Char)
  | [] => none
  | c :: rest =>
    if c = dqChar then some ([], rest)
    else if c = bslChar then
      match rest with
      | [] => none
      | e :: rest2 =>
        if e = 'u' then
          match rest2 with
          | a :: b :: c2 :: d :: rest3 =>
            match hex4Val a b c2 d with
            | none => none
            | some n =>
              if n < 55296 ∨ 57343 < n then
                match parseStringBody rest3 with
                | none => none
                | some (cs, r) => some (Char.ofNat n :: cs, r)
              else none
          | _ => none
        else
          match simpleEsc e with
          | none => none
          | some ch =>
            match parseStringBody rest2 with
            | none => none
            | some (cs, r) => some (ch :: cs, r)
    else if c.toNat < 32 then none
    else
      match parseStringBody rest with
      | none => none
      | some (cs, r) => some (c :: cs, r)

mutual

/-- Recursive-descent JSON value (fuel-bounded; the fuel passed by
`pyJsonLoads` always suffices for a terminating parse). -/
def parseValue : Nat → List Char → Option (PyJson × List Char)
  | 0, _ => none
  | Nat.succ f, s =>
    match skipWs s with
    | [] => none
    | c :: rest =>
      if c = lbChar then
        match skipWs rest with
        | [] => none
        | c2 :: rest2 =>
          if c2 = rbChar then some (PyJson.obj [], rest2)
          else
            match parseMembers f (c2 :: rest2) with
            | none => none
            | some (ms, r) => some (PyJson.obj ms, r)
      else if c = '[' then
        match skipWs rest with
        | [] => none
        | c2 :: rest2 =>
          if c2 = ']' then some (PyJson.arr [], rest2)
          else
            match parseItems f (c2 :: rest2) with
            | none => none
            | some (vs, r) => some (PyJson.arr vs, r)
      else if c = dqChar then
        match parseStringBody rest with
        | none => none
        | some (cs, r) => some (PyJson.str (String.mk cs), r)
      else
        match c :: rest with
        | 't' :: 'r' :: 'u' :: 'e' :: r => some (PyJson.bool true, r)
        | 'f' :: 'a' :: 'l' :: 's' :: 'e' :: r => some (PyJson.bool false, r)
        | 'n' :: 'u' :: 'l' :: 'l' :: r => some (PyJson.null, r)
        | _ => none

/-- Non-empty comma-separated item list of a JSON array, up to and including
the closing bracket. -/
def parseItems : Nat → List Char → Option (List PyJson × List Char)
  | 0, _ => none
  | Nat.succ f, s =>
    match parseValue f s with
    | none => none
    | some (v, rest) =>
      match skipWs rest with
      | [] => none
      | c :: r =>
        if c = ',' then
          match parseItems f r with
          | none => none
          | some (vs, r2) => some (v :: vs, r2)
        else if c = ']' then some ([v], r)
        else none

/-- Non-empty member list of a JSON object, up to and including the closing
brace. -/
def parseMembers : Nat → List Char → Option (List (String × PyJson) × List Char)
  | 0, _ => none
  | Nat.succ f, s =>
    match skipWs s with
    | [] => none
    | c :: rest =>
      if c = dqChar then
        match parseStringBody rest with
        | none => none
        | some (kcs, rest1) =>
          match skipWs rest1 with
          | [] => none
          | c2 :: rest2 =>
            if c2 = ':' then
              match parseValue f rest2 with
              | none => none
              | some (v, rest3) =>
                match skipWs rest3 with
                | [] => none
                | c3 :: rest4 =>
                  if c3 = ',' then
                    match parseMembers f rest4 with
                    | none => none
                    | some (ms, r) => some ((String.mk kcs, v) :: ms, r)
                  else if c3 = rbChar then some ([(String.mk kcs, v)], rest4)
                  else none
            else none
      else none

end

/-- Python `json.loads` on a roster document: parse one value and require
only trailing whitespace after it. -/
def pyJsonLoads (content : String) : Option PyJson :=
  match parseValue (content.length + 1) content.data with
  | none => none
  | some (v, rest) => if skipWs rest = [] then some v else none

/-- String elements of a parsed array; `none` if some element is not a
string (such a roster is treated as malformed by the model). -/
def asStrings : List PyJson → Option (List String)
  | [] => some []
  | PyJson.str s :: rest =>
    match asStrings rest with
    | none => none
    | some l => some (s :: l)
  | _ => none

/-- `load_backends` (lines 41-48 of the source): read `backends.json`,
`json.loads(data).get("backends", [])`, and on any exception (missing file,
parse failure, non-object top level) return `[]`.  A `"backends"` value that
is not an array of strings is treated as malformed and yields `[]` (the
source would propagate such a value unchecked; no claim depends on it). -/
def loadBackends (file : Option String) : List String :=
  match file with
  | none => []
  | some content =>
    match pyJsonLoads content with
    | some (PyJson.obj members) =>
      match pyLookup members ("backends") with
      | some (PyJson.arr items) => (asStrings items).getD []
      | _ => []
    | _ => []

/-- `add_server` (lines 93-102 of the source): if the URL is not a key of
`queue_counts`, append it to `backends`, initialise its count to 0 and its
health to `False`, and persist the roster; return the roster either way. -/
def addServer (s : LBState) (url : String) : LBState × List String :=
  if pyContains s.queue_counts url then (s, s.backends)
  else
    let bs := s.backends ++ [url]
    let s2 : LBState :=
      { backends := bs
        queue_counts := pyDictSet s.queue_counts url 0
        health_status := pyDictSet s.health_status url false
        file := some (pyJsonDumpsBackends bs) }
    (s2, bs)

/-- `remove_server` (lines 104-113 of the source): if the URL is a key of
`queue_counts`, drop it from the roster and both dicts and persist; return
the roster either way. -/
def removeServer (s : LBState) (url : String) : LBState × List String :=
  if pyContains s.queue_counts url then
    let bs := listRemoveFirst s.backends url
    let s2 : LBState :=
      { backends := bs
        queue_counts := pyDictPop s.queue_counts url
        health_status := pyDictPop s.health_status url
        file := some (pyJsonDumpsBackends bs) }
    (s2, bs)
  else (s, s.backends)

/-- A management mutation: one `POST /servers` or `DELETE /servers` call. -/
inductive MgmtOp where
  | add (url : String)
  | remove (url : String)
deriving DecidableEq

/-- URL carried by a management mutation. -/
def MgmtOp.url : MgmtOp → String
  | MgmtOp.add u => u
  | MgmtOp.remove u => u

/-- Apply one management mutation to the state. -/
def applyOp (s : LBState) (op : MgmtOp) : LBState :=
  match op with
  | MgmtOp.add u => (addServer s u).1
  | MgmtOp.remove u => (removeServer s u).1

/-- Apply a sequence of management mutations in order. -/
def applyOps (s : LBState) (ops : List MgmtOp) : LBState :=
  ops.foldl applyOp s

/-- State of a freshly started process before `lifespan` runs: empty
containers and no persisted file. -/
def emptyState : LBState :=
  { backends := [], queue_counts := [], health_status := [], file := none }

/-- `lifespan` startup (lines 74-78 of the source): extend `backends` with
the loaded roster and initialise every loaded URL with `queue_counts = 0` and
`health_status = False`.  The file itself is left untouched. -/
def startupState (file : Option String) : LBState :=
  let loaded := loadBackends file
  { backends := loaded
    queue_counts := loaded.foldl (fun d u => pyDictSet d u 0) []
    health_status := loaded.foldl (fun d u => pyDictSet d u false) []
    file := file }

/-- Characters that JSON renders verbatim: printable ASCII other than the
quote and the backslash.  Every URL in the test fixtures satisfies this. -/
def jsonSafeChar (c : Char) : Prop :=
  32 ≤ c.toNat ∧ c.toNat < 127 ∧ c ≠ dqChar ∧ c ≠ bslChar

instance : DecidablePred jsonSafeChar := fun c => by
  unfold jsonSafeChar; infer_instance

/-- Strings all of whose characters are JSON-verbatim. -/
def jsonSafeStr (u : String) : Prop :=
  ∀ c ∈ u.data, jsonSafeChar c

instance : DecidablePred jsonSafeStr := fun u => by
  unfold jsonSafeStr; infer_instance

/-- Fixture: a registry with one healthy backend with no requests in flight. -/
def fixOneHealthy : LBState :=
  { backends := ["http://a"]
    queue_counts := [("http://a", 0)]
    health_status := [("http://a", true)]
    file := none }

/-- Fixture: a plain inbound request with no query and no body. -/
def fixReqPlain : InboundRequest :=
  { method := "GET", path := "/foo", rawQuery := "", headers := [], bodyChunks := [] }

/-- Fixture: transport fails on the first attempt, succeeds from the second. -/
def fixOutRetryOnce : Nat → AttemptOutcome :=
  fun n => if n = 1 then AttemptOutcome.reqError ("boom") else AttemptOutcome.ok 200 [] []

/-- Fixture: every attempt succeeds with an empty 200. -/
def fixOutOk : Nat → AttemptOutcome :=
  fun _ => AttemptOutcome.ok 200 [] []

/-- Fixture: a registry with two backends, both unhealthy. -/
def fixAllUnhealthy : LBState :=
  { backends := ["http://a", "http://b"]
    queue_counts := [("http://a", 0), ("http://b", 0)]
    health_status := [("http://a", false), ("http://b", false)]
    file := none }

/-- Fixture: three healthy backends with counts 2, 1, 1, so the second is the
earliest least-loaded one. -/
def fixThreeHealthy : LBState :=
  { backends := ["http://a", "http://b", "http://c"]
    queue_counts := [("http://a", 2), ("http://b", 1), ("http://c", 1)]
    health_status := [("http://a", true), ("http://b", true), ("http://c", true)]
    file := none }

/-- Fixture: a POST with a query string and a two-chunk body. -/
def fixReqBody : InboundRequest :=
  { method := "POST", path := "/foo", rawQuery := "x=1&y=2", headers := []
    bodyChunks := [[104, 105], [33]] }

/-- Fixture: the dispatch recorded for `fixReqBody` against `http://a`:
the URL carries the bytes-repr of the query and the content is the fully
accumulated body. -/
def fixCallBody : UpstreamCall :=
  { method := "POST"
    url := buildUpstreamUrl ("http://a") ("/foo") ("x=1&y=2")
    headers := []
    content := UpstreamContent.bytes [104, 105, 33] }

/-- Fixture: the management scenario of the specification, §8 scenario 6:
add two backends, remove the first. -/
def fixOps : List MgmtOp :=
  [MgmtOp.add ("http://u1"), MgmtOp.add ("http://u2"), MgmtOp.remove ("http://u1")]

/-- Fixture: the dispatch recorded for `fixReqPlain` against `http://a`:
empty query still yields a query part (the repr of the empty bytes). -/
def fixCallPlain : UpstreamCall :=
  { method := "GET"
    url := buildUpstreamUrl ("http://a") ("/foo") ("")
    headers := []
    content := UpstreamContent.bytes [] }

/-- Suffix view of a serialised roster: the characters that follow the
closing quote of the current item, i.e. either the document tail or the
separator and the next item. -/
def itemsTail : List String → List Char
  | [] => tailChars
  | v :: vs => ',' :: nlChar :: (spaces4 ++ dqChar :: escChars v ++ dqChar :: itemsTail vs)

theorem pyLookup_set_self {α : Type} (d : List (String × α)) (k : String) (v : α) :
    pyLookup (pyDictSet d k v) k = some v := by
  induction d with
  | nil => simp [pyDictSet, pyLookup]
  | cons hd tl ih =>
    obtain ⟨k2, v2⟩ := hd
    by_cases h : k2 = k
    · simp [pyDictSet, h, pyLookup]
    · simp [pyDictSet, h, pyLookup, ih]

theorem pyLookup_set_ne {α : Type} (d : List (String × α)) (k : String) (v : α)
    (k2 : String) (h : k2 ≠ k) :
    pyLookup (pyDictSet d k v) k2 = pyLookup d k2 := by
  induction d with
  | nil =>
    simp only [pyDictSet, pyLookup]
    rw [if_neg (fun he : k = k2 => h he.symm)]
  | cons hd tl ih =>
    obtain ⟨k3, v3⟩ := hd
    by_cases h3 : k3 = k
    · subst h3
      simp only [pyDictSet, if_pos rfl, pyLookup]
      rw [if_neg (fun he : k3 = k2 => h he.symm), if_neg (fun he : k3 = k2 => h he.symm)]
    · simp only [pyDictSet, if_neg h3, pyLookup]
      by_cases h4 : k3 = k2
      · rw [if_pos h4, if_pos h4]
      · rw [if_neg h4, if_neg h4]
        exact ih

theorem pyDictSet_absent {α : Type} (d : List (String × α)) (k : String) (v : α)
    (h : pyLookup d k = none) : pyDictSet d k v = d ++ [(k, v)] := by
  induction d with
  | nil => simp [pyDictSet]
  | cons hd tl ih =>
    obtain ⟨k2, v2⟩ := hd
    by_cases h2 : k2 = k
    · simp [pyLookup, h2] at h
    · simp [pyLookup, h2] at h
      simp [pyDictSet, h2, ih h]

theorem dictKeys_set_present {α : Type} (d : List (String × α)) (k : String) (v : α)
    (h : pyLookup d k ≠ none) : dictKeys (pyDictSet d k v) = dictKeys d := by
  induction d with
  | nil => simp [pyLookup] at h
  | cons hd tl ih =>
    obtain ⟨k2, v2⟩ := hd
    by_cases h2 : k2 = k
    · subst h2
      simp [pyDictSet, dictKeys]
    · simp [pyLookup, h2] at h
      simp [pyDictSet, h2, dictKeys] at ih ⊢
      exact ih h

theorem pyLookup_foldl_set_const {α : Type} (v : α) (l : List String) :
    ∀ (d : List (String × α)) (u : String),
      pyLookup (l.foldl (fun d2 u2 => pyDictSet d2 u2 v) d) u =
        if u ∈ l then some v else pyLookup d u := by
  induction l with
  | nil => intro d u; simp
  | cons x xs ih =>
    intro d u
    by_cases hx : u ∈ xs
    · simp [List.foldl_cons, ih, hx, List.mem_cons]
    · by_cases hxu : u = x
      · subst hxu
        simp [List.foldl_cons, ih, hx, pyLookup_set_self]
      · simp [List.foldl_cons, ih, hx, List.mem_cons, hxu,
          pyLookup_set_ne _ _ _ _ hxu]

theorem pyMinByGo_split (key : String → Option Int) :
    ∀ (l : List String) (best : String) (bk : Int), key best = some bk →
      (∀ u ∈ l, (key u).isSome = true) →
      ∃ t kt l1 l2,
        pyMinByGo key best bk l = some t ∧ key t = some kt ∧
        best :: l = l1 ++ t :: l2 ∧
        (∀ u ∈ l1, ∀ ku, key u = some ku → kt < ku) ∧
        (∀ u ∈ best :: l, ∀ ku, key u = some ku → kt ≤ ku) := by
  intro l
  induction l with
  | nil =>
    intro best bk hb _
    refine ⟨best, bk, [], [], rfl, hb, rfl, by simp, ?_⟩
    intro u hu ku hku
    simp only [List.mem_singleton] at hu
    subst hu
    rw [hb] at hku
    have he : bk = ku := Option.some.inj hku
    exact le_of_eq he
  | cons x xs ih =>
    intro best bk hb hl
    have hx : (key x).isSome = true := hl x (by simp)
    obtain ⟨kx, hkx⟩ := Option.isSome_iff_exists.mp hx
    have hxs : ∀ u ∈ xs, (key u).isSome = true := fun u hu => hl u (by simp [hu])
    by_cases hlt : kx < bk
    · obtain ⟨t, kt, l1, l2, hgo, hkt, hsplit, hstrict, hglob⟩ := ih x kx hkx hxs
      have hktkx : kt ≤ kx := hglob x (by simp) kx hkx
      refine ⟨t, kt, best :: l1, l2, ?_, hkt, ?_, ?_, ?_⟩
      · simp only [pyMinByGo, hkx]
        rw [if_pos hlt]
        exact hgo
      · rw [List.cons_append, ← hsplit]
      · intro u hu ku hku
        rcases List.mem_cons.mp hu with h1 | h2
        · subst h1
          rw [hb] at hku
          have he : bk = ku := Option.some.inj hku
          subst he
          exact lt_of_le_of_lt hktkx hlt
        · exact hstrict u h2 ku hku
      · intro u hu ku hku
        rcases List.mem_cons.mp hu with h1 | h2
        · subst h1
          rw [hb] at hku
          have he : bk = ku := Option.some.inj hku
          subst he
          exact le_of_lt (lt_of_le_of_lt hktkx hlt)
        · exact hglob u h2 ku hku
    · have hge : bk ≤ kx := not_lt.mp hlt
      obtain ⟨t, kt, l1, l2, hgo, hkt, hsplit, hstrict, hglob⟩ := ih best bk hb hxs
      cases l1 with
      | nil =>
        simp only [List.nil_append] at hsplit
        injection hsplit with hbt hl2
        have hktbk : kt = bk := by
          rw [← hbt] at hkt
          rw [hb] at hkt
          exact (Option.some.inj hkt).symm
        refine ⟨t, kt, [], x :: xs, ?_, hkt, ?_, by simp, ?_⟩
        · simp only [pyMinByGo, hkx]
          rw [if_neg hlt]
          exact hgo
        · rw [List.nil_append, ← hbt]
        · intro u hu ku hku
          rcases List.mem_cons.mp hu with h1 | h2
          · subst h1
            rw [hb] at hku
            have he : bk = ku := Option.some.inj hku
            subst he
            exact le_of_eq hktbk
          · rcases List.mem_cons.mp h2 with h3 | h4
            · subst h3
              rw [hkx] at hku
              have he : kx = ku := Option.some.inj hku
              subst he
              rw [hktbk]
              exact hge
            · exact hglob u (by simp [h4]) ku hku
      | cons b l1b =>
        rw [List.cons_append] at hsplit
        injection hsplit with hbb htail
        subst hbb
        have hstrictbest : kt < bk := by
          have h5 := hstrict best (by simp) bk hb
          exact h5
        refine ⟨t, kt, best :: x :: l1b, l2, ?_, hkt, ?_, ?_, ?_⟩
        · simp only [pyMinByGo, hkx]
          rw [if_neg hlt]
          exact hgo
        · rw [List.cons_append, List.cons_append, ← htail]
        · intro u hu ku hku
          rcases List.mem_cons.mp hu with h1 | h2
          · subst h1
            rw [hb] at hku
            have he : bk = ku := Option.some.inj hku
            subst he
            exact hstrictbest
          · rcases List.mem_cons.mp h2 with h3 | h4
            · subst h3
              rw [hkx] at hku
              have he : kx = ku := Option.some.inj hku
              subst he
              exact lt_of_lt_of_le hstrictbest hge
            · exact hstrict u (by simp [h4]) ku hku
        · intro u hu ku hku
          rcases List.mem_cons.mp hu with h1 | h2
          · subst h1
            exact hglob u (by simp) ku hku
          · rcases List.mem_cons.mp h2 with h3 | h4
            · subst h3
              rw [hkx] at hku
              have he : kx = ku := Option.some.inj hku
              subst he
              exact le_of_lt (lt_of_lt_of_le hstrictbest hge)
            · exact hglob u (by simp [h4]) ku hku

theorem availList_mem (s : LBState) (u : String) :
    u ∈ availList s ↔ u ∈ s.backends ∧ pyGetD s.health_status u false = true := by
  unfold availList
  exact List.mem_filter

theorem selectBackend_of_no_healthy (s : LBState) (h : availList s = []) :
    selectBackend s = SelectResult.noBackends := by
  unfold selectBackend
  rw [h]

theorem mw_of_no_healthy (s : LBState) (req : InboundRequest)
    (outcomes : Nat → AttemptOutcome)
    (hm : isManagementPath req.path = false) (h : availList s = []) :
    loadBalancerMiddleware s req outcomes =
      MWResult.httpError 503 ("No available backends") s [] := by
  unfold loadBalancerMiddleware
  rw [hm, selectBackend_of_no_healthy s h]
  simp

theorem attemptLoop_calls (P : UpstreamCall → Prop) (call : UpstreamCall) (target : String)
    (outcomes : Nat → AttemptOutcome) :
    ∀ (fuel attempt : Nat) (s : LBState) (calls : List UpstreamCall),
      P call → (∀ c ∈ calls, P c) →
      ∀ c ∈ callsOf (attemptLoop call target outcomes attempt fuel s calls), P c := by
  intro fuel
  induction fuel with
  | zero =>
    intro attempt s calls hc hcs c hmem
    simp only [attemptLoop, callsOf] at hmem
    exact hcs c hmem
  | succ f ih =>
    intro attempt s calls hc hcs c hmem
    have hcalls2 : ∀ c2 ∈ calls ++ [call], P c2 := by
      intro c2 h2
      rcases List.mem_append.mp h2 with h3 | h3
      · exact hcs c2 h3
      · simp only [List.mem_singleton] at h3
        subst h3
        exact hc
    cases ho : outcomes attempt with
    | ok status hs body =>
      cases hr : releaseTarget s.queue_counts target with
      | none =>
        simp only [attemptLoop, ho, hr, callsOf] at hmem
        exact hcalls2 c hmem
      | some qc =>
        simp only [attemptLoop, ho, hr, callsOf] at hmem
        exact hcalls2 c hmem
    | reqError msg =>
      by_cases hat : attempt = maxRetries
      · subst hat
        cases hr : releaseTarget s.queue_counts target with
        | none =>
          simp only [attemptLoop, ho, hr, eq_self_iff_true, if_true, callsOf] at hmem
          exact hcalls2 c hmem
        | some qc =>
          simp only [attemptLoop, ho, hr, eq_self_iff_true, if_true, callsOf] at hmem
          exact hcalls2 c hmem
      · cases hr : releaseTarget s.queue_counts target with
        | none =>
          simp only [attemptLoop, ho, hr, if_neg hat, callsOf] at hmem
          exact hcalls2 c hmem
        | some qc =>
          simp only [attemptLoop, ho, hr, if_neg hat] at hmem
          exact ih (attempt + 1) { s with queue_counts := qc } (calls ++ [call])
            hc hcalls2 c hmem

/-- C3: whenever the registry holds at least one healthy backend (and, as on
every reachable state, each listed backend has an in-flight count),
`selectBackend` returns the healthy backend with the minimal in-flight count,
breaking ties in favour of the earliest-inserted one (every strictly earlier
healthy backend has a strictly larger count), and increments exactly that
backend's count by one, leaving all other counts, the roster, the health
flags and the persisted file unchanged. -/
theorem c3_select_least_loaded (s : LBState)
    (hwf : ∀ u ∈ s.backends, (pyLookup s.queue_counts u).isSome = true)
    (hh : ∃ u ∈ s.backends, pyGetD s.health_status u false = true) :
    ∃ t s2 c l1 l2,
      selectBackend s = SelectResult.selected t s2 ∧
      availList s = l1 ++ t :: l2 ∧
      pyLookup s.queue_counts t = some c ∧
      (∀ u ∈ availList s, ∀ cu, pyLookup s.queue_counts u = some cu → c ≤ cu) ∧
      (∀ u ∈ l1, ∀ cu, pyLookup s.queue_counts u = some cu → c < cu) ∧
      pyLookup s2.queue_counts t = some (c + 1) ∧
      (∀ u, u ≠ t → pyLookup s2.queue_counts u = pyLookup s.queue_counts u) ∧
      s2.backends = s.backends ∧ s2.health_status = s.health_status ∧
      s2.file = s.file := by
  obtain ⟨w, hwb, hwh⟩ := hh
  have hwa : w ∈ availList s := (availList_mem s w).mpr ⟨hwb, hwh⟩
  cases heq : availList s with
  | nil =>
    rw [heq] at hwa
    exact absurd hwa (List.not_mem_nil w)
  | cons x xs =>
    have hkeys : ∀ u ∈ x :: xs, (pyLookup s.queue_counts u).isSome = true := by
      intro u hu
      have hub : u ∈ s.backends := ((availList_mem s u).mp (heq ▸ hu)).1
      exact hwf u hub
    obtain ⟨kx, hkx⟩ := Option.isSome_iff_exists.mp (hkeys x (by simp))
    obtain ⟨t, kt, l1, l2, hgo, hkt, hsplit, hstrict, hglob⟩ :=
      pyMinByGo_split (fun u => pyLookup s.queue_counts u) xs x kx hkx
        (fun u hu => hkeys u (by simp [hu]))
    refine ⟨t, { s with queue_counts := pyDictSet s.queue_counts t (kt + 1) },
      kt, l1, l2, ?_, ?_, hkt, ?_, ?_, ?_, ?_, rfl, rfl, rfl⟩
    · unfold selectBackend
      rw [heq]
      simp only [pyMinBy, hkx, hgo, hkt]
    · exact hsplit
    · intro u hu cu hcu
      exact hglob u hu cu hcu
    · intro u hu cu hcu
      exact hstrict u hu cu hcu
    · exact pyLookup_set_self s.queue_counts t (kt + 1)
    · intro u hu
      exact pyLookup_set_ne s.queue_counts t (kt + 1) u hu

/-- Witness for C3 at a concrete registry: three healthy backends with
in-flight counts 2, 1, 1; the selection facts hold as the theorem states. -/
theorem c3_select_least_loaded_witness :
    ∃ t s2 c l1 l2,
      selectBackend fixThreeHealthy = SelectResult.selected t s2 ∧
      availList fixThreeHealthy = l1 ++ t :: l2 ∧
      pyLookup fixThreeHealthy.queue_counts t = some c ∧
      (∀ u ∈ availList fixThreeHealthy, ∀ cu,
        pyLookup fixThreeHealthy.queue_counts u = some cu → c ≤ cu) ∧
      (∀ u ∈ l1, ∀ cu, pyLookup fixThreeHealthy.queue_counts u = some cu → c < cu) ∧
      pyLookup s2.queue_counts t = some (c + 1) ∧
      (∀ u, u ≠ t → pyLookup s2.queue_counts u = pyLookup fixThreeHealthy.queue_counts u) ∧
      s2.backends = fixThreeHealthy.backends ∧
      s2.health_status = fixThreeHealthy.health_status ∧
      s2.file = fixThreeHealthy.file :=
  c3_select_least_loaded fixThreeHealthy (by decide) (by decide)

/-- C1 (code-bug evidence): the in-flight decrement sits in a `finally`
block inside the retry `for` loop, so it runs once per dispatch attempt, not
once per request.  For a request whose first attempt fails with a transport
error and whose second succeeds, the decrement runs twice after a single
increment: the selected backend ends at `in_flight = -1` and two upstream
dispatches are recorded. -/
theorem c1_retry_double_release :
    loadBalancerMiddleware fixOneHealthy fixReqPlain fixOutRetryOnce =
      MWResult.response
        { status := 200, headers := [], mediaType := none, bodyChunks := [] }
        { backends := ["http://a"], queue_counts := [("http://a", -1)]
          health_status := [("http://a", true)], file := none }
        [fixCallPlain, fixCallPlain] ∧
    pyLookup (stateOf (loadBalancerMiddleware fixOneHealthy fixReqPlain
      fixOutRetryOnce)).queue_counts ("http://a") = some (-1) := by
  decide

/-- C2 (code-bug evidence): the release performed by the middleware is the
unguarded `queue_counts[target] -= 1`: on a registry without the URL it
raises `KeyError` (modelled as `none`) instead of being a silent no-op, and
on a count of 0 it produces `-1`, violating `in_flight >= 0`. -/
theorem c2_release_unguarded :
    releaseTarget [] ("http://a") = none ∧
    releaseTarget [(("http://a" : String), (0 : Int))] ("http://a") =
      some [("http://a", -1)] := by
  decide

/-- C4 (code-bug evidence): the upstream URL interpolates
`request.url.query.encode("utf-8")` into an f-string, so the query part is
the Python bytes repr `b pq a=1 pq` (with `pq` the single-quote character),
not the verbatim query `a=1`. -/
theorem c4_upstream_url_bytes_repr :
    buildUpstreamUrl ("http://a") ("/foo") ("a=1") =
      String.mk (("http://a/foo?b").data ++ sqChar :: ("a=1").data ++ [sqChar]) ∧
    buildUpstreamUrl ("http://a") ("/foo") ("a=1") ≠ ("http://a/foo?a=1") := by
  decide

/-- C5 (counterexample): writing a health flag for a URL that is absent from
the registry is not a no-op: the plain dict assignment inserts the entry, so
the health map gains a key that the (empty) backend list does not contain. -/
theorem c5_set_health_absent_inserts :
    setHealth emptyState ("http://a") true ≠ emptyState ∧
    (setHealth emptyState ("http://a") true).health_status = [("http://a", true)] ∧
    (setHealth emptyState ("http://a") true).backends = [] := by
  decide

/-- C5 (amended): the health write always records the flag: roster, counts
and file are untouched and the flag for the URL reads back as written; on a
present URL the key set is preserved, but on an absent URL a fresh entry is
appended instead of the write being a no-op, so a probe racing with a remove
can leave a health key that is not in the registry list. -/
theorem c5_set_health_always_writes (s : LBState) (url : String) (v : Bool) :
    (setHealth s url v).backends = s.backends ∧
    (setHealth s url v).queue_counts = s.queue_counts ∧
    (setHealth s url v).file = s.file ∧
    pyLookup (setHealth s url v).health_status url = some v ∧
    (pyLookup s.health_status url = none →
      (setHealth s url v).health_status = s.health_status ++ [(url, v)]) ∧
    (pyLookup s.health_status url ≠ none →
      dictKeys (setHealth s url v).health_status = dictKeys s.health_status) := by
  refine ⟨rfl, rfl, rfl, pyLookup_set_self _ _ _, ?_, ?_⟩
  · intro h
    show pyDictSet s.health_status url v = s.health_status ++ [(url, v)]
    exact pyDictSet_absent _ _ _ h
  · intro h
    show dictKeys (pyDictSet s.health_status url v) = dictKeys s.health_status
    exact dictKeys_set_present _ _ _ h

/-- Witness for C5's amended statement at concrete registries: an absent URL
is appended to the health map, a present URL keeps the key set. -/
theorem c5_set_health_always_writes_witness :
    (setHealth fixAllUnhealthy ("http://c") true).health_status =
      fixAllUnhealthy.health_status ++ [("http://c", true)] ∧
    dictKeys (setHealth fixAllUnhealthy ("http://a") false).health_status =
      dictKeys fixAllUnhealthy.health_status :=
  ⟨(c5_set_health_always_writes fixAllUnhealthy ("http://c") true).2.2.2.2.1 (by decide),
   (c5_set_health_always_writes fixAllUnhealthy ("http://a") false).2.2.2.2.2 (by decide)⟩

/-- C6: when every listed backend is unhealthy, a non-management request is
answered with a raised 503 carrying detail `No available backends`, no
upstream dispatch is recorded, and the registry state is returned unchanged. -/
theorem c6_no_healthy_503 (s : LBState) (req : InboundRequest)
    (outcomes : Nat → AttemptOutcome)
    (hm : isManagementPath req.path = false)
    (hh : ∀ u ∈ s.backends, pyGetD s.health_status u false = false) :
    loadBalancerMiddleware s req outcomes =
      MWResult.httpError 503 ("No available backends") s [] := by
  apply mw_of_no_healthy s req outcomes hm
  apply List.filter_eq_nil_iff.mpr
  intro u hu
  simp [hh u hu]

/-- Witness for C6: two unhealthy backends, a plain request: 503 with the
exact body, no calls, state unchanged. -/
theorem c6_no_healthy_503_witness :
    loadBalancerMiddleware fixAllUnhealthy fixReqPlain fixOutOk =
      MWResult.httpError 503 ("No available backends") fixAllUnhealthy [] :=
  c6_no_healthy_503 fixAllUnhealthy fixReqPlain fixOutOk (by decide) (by decide)

theorem startup_queue_lookup (file : Option String) (u : String)
    (hu : u ∈ loadBackends file) :
    pyLookup (startupState file).queue_counts u = some 0 := by
  show pyLookup ((loadBackends file).foldl (fun d u2 => pyDictSet d u2 0) []) u = some 0
  rw [pyLookup_foldl_set_const]
  simp [hu]

theorem startup_health_lookup (file : Option String) (u : String)
    (hu : u ∈ loadBackends file) :
    pyLookup (startupState file).health_status u = some false := by
  show pyLookup ((loadBackends file).foldl (fun d u2 => pyDictSet d u2 false) []) u = some false
  rw [pyLookup_foldl_set_const]
  simp [hu]

/-- C10: immediately after startup every loaded backend has an in-flight
count of 0 and a health flag of `false`, and consequently (before any probe
cycle has run) every non-management request is answered 503 with
`No available backends`, whatever the persisted file contained. -/
theorem c10_startup_unhealthy_503 (file : Option String) (req : InboundRequest)
    (outcomes : Nat → AttemptOutcome)
    (hm : isManagementPath req.path = false) :
    (∀ u ∈ loadBackends file,
      pyLookup (startupState file).queue_counts u = some 0 ∧
      pyLookup (startupState file).health_status u = some false) ∧
    loadBalancerMiddleware (startupState file) req outcomes =
      MWResult.httpError 503 ("No available backends") (startupState file) [] := by
  constructor
  · intro u hu
    exact ⟨startup_queue_lookup file u hu, startup_health_lookup file u hu⟩
  · apply mw_of_no_healthy _ _ _ hm
    apply List.filter_eq_nil_iff.mpr
    intro u hu
    have hb : u ∈ loadBackends file := hu
    simp [pyGetD, startup_health_lookup file u hb]

/-- Witness for C10 on a concrete persisted roster with one backend. -/
theorem c10_startup_unhealthy_503_witness :
    pyLookup (startupState (some (pyJsonDumpsBackends ["http://a"]))).queue_counts
      ("http://a") = some 0 ∧
    pyLookup (startupState (some (pyJsonDumpsBackends ["http://a"]))).health_status
      ("http://a") = some false ∧
    loadBalancerMiddleware (startupState (some (pyJsonDumpsBackends ["http://a"])))
      fixReqPlain fixOutOk =
      MWResult.httpError 503 ("No available backends")
        (startupState (some (pyJsonDumpsBackends ["http://a"]))) [] :=
  ⟨((c10_startup_unhealthy_503 (some (pyJsonDumpsBackends ["http://a"])) fixReqPlain
      fixOutOk (by decide)).1 ("http://a") (by decide)).1,
   ((c10_startup_unhealthy_503 (some (pyJsonDumpsBackends ["http://a"])) fixReqPlain
      fixOutOk (by decide)).1 ("http://a") (by decide)).2,
   (c10_startup_unhealthy_503 (some (pyJsonDumpsBackends ["http://a"])) fixReqPlain
      fixOutOk (by decide)).2⟩

/-- C8: adding an already-present URL returns the roster with the whole
state (persisted file included) unchanged; removing an absent URL likewise;
and adding a fresh URL appends it to the roster, initialises its in-flight
count to 0 and its health flag to `false`, and persists the new roster. -/
theorem c8_add_remove_noop (s : LBState) (url : String) :
    (pyContains s.queue_counts url = true → addServer s url = (s, s.backends)) ∧
    (pyContains s.queue_counts url = false → removeServer s url = (s, s.backends)) ∧
    (pyContains s.queue_counts url = false →
      (addServer s url).2 = s.backends ++ [url] ∧
      (addServer s url).1.backends = s.backends ++ [url] ∧
      pyLookup (addServer s url).1.queue_counts url = some 0 ∧
      pyLookup (addServer s url).1.health_status url = some false ∧
      (addServer s url).1.file = some (pyJsonDumpsBackends (s.backends ++ [url]))) := by
  refine ⟨?_, ?_, ?_⟩
  · intro h
    simp [addServer, h]
  · intro h
    simp [removeServer, h]
  · intro h
    simp only [addServer, h, Bool.false_eq_true, if_false]
    simp [pyLookup_set_self]

/-- Witness for C8 on a concrete registry containing `http://a` only. -/
theorem c8_add_remove_noop_witness :
    addServer fixOneHealthy ("http://a") = (fixOneHealthy, fixOneHealthy.backends) ∧
    removeServer fixOneHealthy ("http://b") = (fixOneHealthy, fixOneHealthy.backends) ∧
    pyLookup (addServer fixOneHealthy ("http://b")).1.queue_counts ("http://b") = some 0 ∧
    pyLookup (addServer fixOneHealthy ("http://b")).1.health_status ("http://b") =
      some false :=
  ⟨(c8_add_remove_noop fixOneHealthy ("http://a")).1 (by decide),
   (c8_add_remove_noop fixOneHealthy ("http://b")).2.1 (by decide),
   ((c8_add_remove_noop fixOneHealthy ("http://b")).2.2 (by decide)).2.2.1,
   ((c8_add_remove_noop fixOneHealthy ("http://b")).2.2 (by decide)).2.2.2.1⟩

/-- C9 (counterexample): for a request whose body arrives as two chunks, the
single recorded dispatch carries `content = bytes` of the concatenated body,
not a stream of the chunks: the claim that the body is relayed upstream as a
stream fails at this input. -/
theorem c9_request_body_not_streamed :
    loadBalancerMiddleware fixOneHealthy fixReqBody fixOutOk =
      MWResult.response
        { status := 200, headers := [], mediaType := none, bodyChunks := [] }
        { backends := ["http://a"], queue_counts := [("http://a", 0)]
          health_status := [("http://a", true)], file := none }
        [fixCallBody] ∧
    fixCallBody.content = UpstreamContent.bytes [104, 105, 33] ∧
    fixCallBody.content ≠ UpstreamContent.stream fixReqBody.bodyChunks := by
  decide

/-- C9 (amended): every upstream dispatch made by the middleware carries the
request body fully accumulated in memory (`content=await request.body()`,
the concatenation of all inbound chunks) rather than a stream of the chunks;
only the upstream response body is relayed chunk by chunk. -/
theorem c9_request_body_buffered (s : LBState) (req : InboundRequest)
    (outcomes : Nat → AttemptOutcome) :
    ∀ c ∈ callsOf (loadBalancerMiddleware s req outcomes),
      c.content = UpstreamContent.bytes (pyRequestBody req.bodyChunks) := by
  intro c hc
  unfold loadBalancerMiddleware at hc
  by_cases hm : isManagementPath req.path = true
  · rw [if_pos hm] at hc
    simp [callsOf] at hc
  · rw [if_neg hm] at hc
    cases hsel : selectBackend s with
    | noBackends =>
      rw [hsel] at hc
      simp [callsOf] at hc
    | keyError =>
      rw [hsel] at hc
      simp [callsOf] at hc
    | selected target s2 =>
      rw [hsel] at hc
      exact attemptLoop_calls
        (fun c2 => c2.content = UpstreamContent.bytes (pyRequestBody req.bodyChunks))
        { method := req.method
          url := buildUpstreamUrl target req.path req.rawQuery
          headers := req.headers
          content := UpstreamContent.bytes (pyRequestBody req.bodyChunks) }
        target outcomes maxRetries 1 s2 [] rfl (by simp) c hc

/-- Witness for C9's amended statement: the concrete dispatch of the
two-chunk request carries the concatenated bytes. -/
theorem c9_request_body_buffered_witness :
    fixCallBody.content = UpstreamContent.bytes (pyRequestBody fixReqBody.bodyChunks) :=
  c9_request_body_buffered fixOneHealthy fixReqBody fixOutOk fixCallBody (by decide)

theorem stringMk_data (s : String) : String.mk s.data = s := by
  cases s
  rfl

theorem escChar_safe (c : Char) (h : jsonSafeChar c) : pyJsonEscapeChar c = [c] := by
  obtain ⟨h1, h2, h3, h4⟩ := h
  have h10 : c ≠ Char.ofNat 10 := by
    intro he
    rw [he] at h1
    exact absurd h1 (by decide)
  have h9 : c ≠ Char.ofNat 9 := by
    intro he
    rw [he] at h1
    exact absurd h1 (by decide)
  have h13 : c ≠ Char.ofNat 13 := by
    intro he
    rw [he] at h1
    exact absurd h1 (by decide)
  have h8 : c ≠ Char.ofNat 8 := by
    intro he
    rw [he] at h1
    exact absurd h1 (by decide)
  have h12 : c ≠ Char.ofNat 12 := by
    intro he
    rw [he] at h1
    exact absurd h1 (by decide)
  unfold pyJsonEscapeChar
  rw [if_neg h3, if_neg h4, if_neg h10, if_neg h9, if_neg h13, if_neg h8, if_neg h12,
    if_neg (by omega), if_pos h2]

theorem escChars_safe_list (cs : List Char) (h : ∀ c ∈ cs, jsonSafeChar c) :
    cs.flatMap pyJsonEscapeChar = cs := by
  induction cs with
  | nil => rfl
  | cons c cs2 ih =>
    have he := escChar_safe c (h c (by simp))
    have ht := ih (fun c2 hc2 => h c2 (by simp [hc2]))
    simp [he, ht]

theorem escChars_safe (u : String) (h : jsonSafeStr u) : escChars u = u.data :=
  escChars_safe_list u.data h

theorem parseStringBody_dq (rest : List Char) :
    parseStringBody (dqChar :: rest) = some ([], rest) := by
  rw [parseStringBody.eq_def]
  simp

theorem parseStringBody_plain (c : Char) (r : List Char)
    (h3 : c ≠ dqChar) (h4 : c ≠ bslChar) (h5 : ¬ c.toNat < 32) :
    parseStringBody (c :: r) =
      match parseStringBody r with
      | none => none
      | some (cs, r2) => some (c :: cs, r2) := by
  rw [parseStringBody.eq_def]
  simp only [if_neg h3, if_neg h4, if_neg h5]

theorem parseStringBody_verbatim (cs : List Char) (rest : List Char)
    (h : ∀ c ∈ cs, jsonSafeChar c) :
    parseStringBody (cs ++ dqChar :: rest) = some (cs, rest) := by
  induction cs with
  | nil =>
    rw [List.nil_append, parseStringBody_dq]
  | cons c cs2 ih =>
    obtain ⟨h1, h2, h3, h4⟩ := h c (by simp)
    rw [List.cons_append, parseStringBody_plain c _ h3 h4 (by omega),
      ih (fun c2 hc2 => h c2 (by simp [hc2]))]

theorem skipWs_cons_not (c : Char) (s : List Char) (h : isWsChar c = false) :
    skipWs (c :: s) = c :: s := by
  simp [skipWs, h]

theorem skipWs_ws_front (pre : List Char) (s : List Char)
    (h : ∀ c ∈ pre, isWsChar c = true) :
    skipWs (pre ++ s) = skipWs s := by
  induction pre with
  | nil => rfl
  | cons c cs ih =>
    rw [List.cons_append]
    simp only [skipWs, h c (by simp), if_true]
    exact ih (fun c2 hc2 => h c2 (by simp [hc2]))

theorem items_concat (us : List String) (u : String) :
    itemsChars (u :: us) ++ tailChars =
      spaces4 ++ dqChar :: escChars u ++ dqChar :: itemsTail us := by
  induction us generalizing u with
  | nil =>
    simp [itemsChars, itemChars, itemsTail, List.append_assoc]
  | cons v vs ih =>
    simp only [itemsChars, itemChars, itemsTail, List.cons_append, List.append_assoc,
      List.singleton_append, List.nil_append]
    rw [ih v]
    simp only [List.cons_append, List.append_assoc]

theorem itemsChars_length_ge (l : List String) : l.length ≤ (itemsChars l).length := by
  induction l with
  | nil => simp [itemsChars]
  | cons u us ih =>
    cases us with
    | nil => simp [itemsChars, itemChars, spaces4]
    | cons v vs =>
      simp only [itemsChars, itemChars] at ih ⊢
      simp only [List.length_append, List.length_cons, spaces4] at ih ⊢
      omega

theorem parseValue_string (f : Nat) (u : String) (rest pre : List Char)
    (hpre : ∀ c ∈ pre, isWsChar c = true) (hsafe : jsonSafeStr u) :
    parseValue (f + 1) (pre ++ dqChar :: (escChars u ++ dqChar :: rest)) =
      some (PyJson.str u, rest) := by
  have hskip : skipWs (pre ++ dqChar :: (escChars u ++ dqChar :: rest)) =
      dqChar :: (escChars u ++ dqChar :: rest) := by
    rw [skipWs_ws_front pre _ hpre, skipWs_cons_not _ _ (by decide)]
  rw [parseValue.eq_def]
  simp only [hskip]
  rw [if_neg (by decide : ¬ dqChar = lbChar), if_neg (by decide : ¬ dqChar = Char.ofNat 91)]
  simp only [if_true, escChars_safe u hsafe, parseStringBody_verbatim u.data rest hsafe,
    stringMk_data]

theorem parseItems_round (us : List String) :
    ∀ (u : String) (f : Nat) (pre : List Char),
      (∀ c ∈ pre, isWsChar c = true) → jsonSafeStr u → (∀ v ∈ us, jsonSafeStr v) →
      us.length + 2 ≤ f →
      parseItems f (pre ++ dqChar :: (escChars u ++ dqChar :: itemsTail us)) =
        some ((u :: us).map PyJson.str, [nlChar, rbChar]) := by
  induction us with
  | nil =>
    intro u f pre hpre hsafe _ hf
    obtain ⟨f2, rfl⟩ : ∃ f2, f = f2 + 2 := ⟨f - 2, by omega⟩
    rw [parseItems.eq_def]
    simp only [itemsTail]
    simp only [parseValue_string f2 u tailChars pre hpre hsafe]
    have hsk : skipWs tailChars = ']' :: [nlChar, rbChar] := by decide
    simp only [hsk]
    simp
  | cons v vs ih =>
    intro u f pre hpre hsafe hvs hf
    obtain ⟨f2, rfl⟩ : ∃ f2, f = f2 + 2 := ⟨f - 2, by omega⟩
    rw [parseItems.eq_def]
    simp only [parseValue_string f2 u (itemsTail (v :: vs)) pre hpre hsafe]
    have hsk2 : skipWs (itemsTail (v :: vs)) =
        ',' :: nlChar :: (spaces4 ++ dqChar :: escChars v ++ dqChar :: itemsTail vs) := by
      show skipWs (',' :: nlChar :: (spaces4 ++ dqChar :: escChars v ++ dqChar :: itemsTail vs)) = _
      exact skipWs_cons_not _ _ (by decide)
    simp only [hsk2, if_true]
    have hre : nlChar :: (spaces4 ++ dqChar :: escChars v ++ dqChar :: itemsTail vs) =
        (nlChar :: spaces4) ++ dqChar :: (escChars v ++ dqChar :: itemsTail vs) := by
      simp [List.cons_append, List.append_assoc]
    rw [hre, ih v (f2 + 1) (nlChar :: spaces4) (by decide) (hvs v (by simp))
      (fun w hw => hvs w (by simp [hw])) (by simp at hf ⊢; omega)]
    simp

theorem parseValue_doc (u : String) (us : List String) (f4 : Nat)
    (hsafe : jsonSafeStr u) (hus : ∀ v ∈ us, jsonSafeStr v)
    (hf : us.length + 2 ≤ f4) :
    parseValue (f4 + 3) (dumpChars (u :: us)) =
      some (PyJson.obj [(("backends" : String), PyJson.arr ((u :: us).map PyJson.str))],
        ([] : List Char)) := by
  have hshape : dumpChars (u :: us) =
      lbChar :: nlChar :: ' ' :: ' ' :: dqChar :: 'b' :: 'a' :: 'c' :: 'k' :: 'e' :: 'n' ::
        'd' :: 's' :: dqChar :: ':' :: ' ' :: '[' :: nlChar :: ' ' :: ' ' :: ' ' :: ' ' ::
        (dqChar :: (escChars u ++ dqChar :: itemsTail us)) := by
    show headChars ++ itemsChars (u :: us) ++ tailChars = _
    rw [List.append_assoc, items_concat us u]
    rfl
  have hskA : ∀ T : List Char, skipWs (nlChar :: ' ' :: ' ' :: T) = skipWs T := by
    intro T
    have h := skipWs_ws_front [nlChar, ' ', ' '] T (by decide)
    simpa using h
  have hskB : ∀ T : List Char, skipWs (' ' :: T) = skipWs T := by
    intro T
    have h := skipWs_ws_front [' '] T (by decide)
    simpa using h
  have hskC : ∀ T : List Char, skipWs (nlChar :: ' ' :: ' ' :: ' ' :: ' ' :: T) = skipWs T := by
    intro T
    have h := skipWs_ws_front [nlChar, ' ', ' ', ' ', ' '] T (by decide)
    simpa using h
  have wdq : isWsChar dqChar = false := by decide
  have wlb : isWsChar lbChar = false := by decide
  have wcl : isWsChar (':' : Char) = false := by decide
  have wob : isWsChar ('[' : Char) = false := by decide
  have hpb : ∀ AFTER : List Char,
      parseStringBody ('b' :: 'a' :: 'c' :: 'k' :: 'e' :: 'n' :: 'd' :: 's' ::
        dqChar :: AFTER) = some (['b', 'a', 'c', 'k', 'e', 'n', 'd', 's'], AFTER) := by
    intro AFTER
    have h := parseStringBody_verbatim (['b', 'a', 'c', 'k', 'e', 'n', 'd', 's']) AFTER
      (by decide)
    simpa using h
  have hitems := parseItems_round us u f4 [] (by simp) hsafe hus hf
  simp only [List.nil_append] at hitems
  have hsk5 : skipWs [nlChar, rbChar] = [rbChar] := by decide
  have hne1 : ¬ dqChar = rbChar := by decide
  have hne2 : ¬ ('[' : Char) = lbChar := by decide
  have hne3 : ¬ dqChar = (']' : Char) := by decide
  have hne4 : ¬ rbChar = (',' : Char) := by decide
  rw [hshape]
  rw [parseValue.eq_def]
  simp only [skipWs_cons_not _ _ wlb, if_true, hskA, skipWs_cons_not _ _ wdq,
    if_neg hne1]
  rw [parseMembers.eq_def]
  simp only [skipWs_cons_not _ _ wdq, if_true, hpb, skipWs_cons_not _ _ wcl]
  rw [parseValue.eq_def]
  simp only [hskB, skipWs_cons_not _ _ wob, if_neg hne2, if_true, hskC,
    skipWs_cons_not _ _ wdq, if_neg hne3, hitems, hsk5, if_neg hne4]

theorem loads_dumps (l : List String) (hsafe : ∀ u ∈ l, jsonSafeStr u) :
    pyJsonLoads (pyJsonDumpsBackends l) =
      some (PyJson.obj [(("backends" : String), PyJson.arr (l.map PyJson.str))]) := by
  cases l with
  | nil => rfl
  | cons u us =>
    have hdc : dumpChars (u :: us) = headChars ++ itemsChars (u :: us) ++ tailChars := rfl
    have hil := itemsChars_length_ge (u :: us)
    have hge : us.length + 4 ≤ (dumpChars (u :: us)).length := by
      rw [hdc]
      simp only [List.length_append]
      have h1 : headChars.length = 18 := by decide
      have h2 : tailChars.length = 6 := by decide
      simp only [List.length_cons] at hil
      omega
    obtain ⟨f4, hf1, hf2⟩ :
        ∃ f4, (dumpChars (u :: us)).length + 1 = f4 + 3 ∧ us.length + 2 ≤ f4 :=
      ⟨(dumpChars (u :: us)).length - 2, by omega, by omega⟩
    unfold pyJsonLoads
    rw [show (pyJsonDumpsBackends (u :: us)).data = dumpChars (u :: us) from rfl]
    rw [show (pyJsonDumpsBackends (u :: us)).length = (dumpChars (u :: us)).length from rfl]
    rw [hf1]
    rw [parseValue_doc u us f4 (hsafe u (by simp)) (fun v hv => hsafe v (by simp [hv])) hf2]
    simp [skipWs]

theorem asStrings_map (l : List String) : asStrings (l.map PyJson.str) = some l := by
  induction l with
  | nil => rfl
  | cons u us ih => simp [asStrings, ih]

theorem loadBackends_dumps (l : List String) (hsafe : ∀ u ∈ l, jsonSafeStr u) :
    loadBackends (some (pyJsonDumpsBackends l)) = l := by
  unfold loadBackends
  simp only [loads_dumps l hsafe]
  have hlk : pyLookup [(("backends" : String), PyJson.arr (l.map PyJson.str))]
      ("backends") = some (PyJson.arr (l.map PyJson.str)) := by
    simp [pyLookup]
  simp only [hlk, asStrings_map]
  simp

theorem mem_listRemoveFirst (l : List String) (u v : String)
    (h : v ∈ listRemoveFirst l u) : v ∈ l := by
  induction l with
  | nil => simp [listRemoveFirst] at h
  | cons x xs ih =>
    by_cases hx : x = u
    · simp only [listRemoveFirst, hx, if_pos rfl] at h
      exact List.mem_cons_of_mem x h
    · simp only [listRemoveFirst, if_neg hx] at h
      rcases List.mem_cons.mp h with h1 | h2
      · simp [h1]
      · simp [ih h2]

theorem applyOp_inv (s : LBState) (op : MgmtOp) (hop : jsonSafeStr op.url)
    (h1 : loadBackends s.file = s.backends)
    (h2 : ∀ u ∈ s.backends, jsonSafeStr u)
    (h3 : s.file = none ∨ s.file = some (pyJsonDumpsBackends s.backends)) :
    loadBackends (applyOp s op).file = (applyOp s op).backends ∧
    (∀ u ∈ (applyOp s op).backends, jsonSafeStr u) ∧
    ((applyOp s op).file = none ∨
      (applyOp s op).file = some (pyJsonDumpsBackends (applyOp s op).backends)) := by
  cases op with
  | add u =>
    by_cases h : pyContains s.queue_counts u = true
    · simp only [applyOp, addServer, h, if_true]
      exact ⟨h1, h2, h3⟩
    · have hall : ∀ v ∈ s.backends ++ [u], jsonSafeStr v := by
        intro v hv
        rcases List.mem_append.mp hv with hv1 | hv2
        · exact h2 v hv1
        · simp only [List.mem_singleton] at hv2
          subst hv2
          simpa [MgmtOp.url] using hop
      simp only [applyOp, addServer, h, Bool.false_eq_true, if_false]
      exact ⟨loadBackends_dumps _ hall, hall, Or.inr trivial⟩
  | remove u =>
    by_cases h : pyContains s.queue_counts u = true
    · have hall : ∀ v ∈ listRemoveFirst s.backends u, jsonSafeStr v :=
        fun v hv => h2 v (mem_listRemoveFirst _ _ _ hv)
      simp only [applyOp, removeServer, h, if_true]
      exact ⟨loadBackends_dumps _ hall, hall, Or.inr trivial⟩
    · simp only [applyOp, removeServer, h, Bool.false_eq_true, if_false]
      exact ⟨h1, h2, h3⟩

theorem applyOps_inv (ops : List MgmtOp) :
    ∀ s : LBState, (∀ op ∈ ops, jsonSafeStr op.url) →
      loadBackends s.file = s.backends →
      (∀ u ∈ s.backends, jsonSafeStr u) →
      (s.file = none ∨ s.file = some (pyJsonDumpsBackends s.backends)) →
      loadBackends (applyOps s ops).file = (applyOps s ops).backends ∧
      (∀ u ∈ (applyOps s ops).backends, jsonSafeStr u) ∧
      ((applyOps s ops).file = none ∨
        (applyOps s ops).file = some (pyJsonDumpsBackends (applyOps s ops).backends)) := by
  induction ops with
  | nil =>
    intro s _ h1 h2 h3
    exact ⟨h1, h2, h3⟩
  | cons op rest ih =>
    intro s hops h1 h2 h3
    have hstep := applyOp_inv s op (hops op (by simp)) h1 h2 h3
    have hrest := ih (applyOp s op) (fun op2 hop2 => hops op2 (by simp [hop2]))
      hstep.1 hstep.2.1 hstep.2.2
    simpa [applyOps, List.foldl_cons] using hrest

/-- C7: after any sequence of add/remove operations from a fresh start (with
URLs in the JSON-verbatim character range), loading the persisted document
back yields exactly the roster, in order; and the persisted file, when it
exists, is exactly the `indent=2` roster document. -/
theorem c7_save_load_roundtrip (ops : List MgmtOp)
    (hops : ∀ op ∈ ops, jsonSafeStr op.url) :
    loadBackends (applyOps emptyState ops).file = (applyOps emptyState ops).backends ∧
    ((applyOps emptyState ops).file = none ∨
      (applyOps emptyState ops).file =
        some (pyJsonDumpsBackends (applyOps emptyState ops).backends)) := by
  have h := applyOps_inv ops emptyState hops rfl (by simp [emptyState]) (Or.inl rfl)
  exact ⟨h.1, h.2.2⟩

/-- Witness for C7 on the specification's management scenario: add two
backends, remove the first; the persisted file loads back to the roster. -/
theorem c7_save_load_roundtrip_witness :
    loadBackends (applyOps emptyState fixOps).file = (applyOps emptyState fixOps).backends :=
  (c7_save_load_roundtrip fixOps (by decide)).1
